import Mathlib

/-
Verification of the core of the Cisco Troubleshooting Toolkit
(`cisco_troubleshooter.py`): a shallow embedding of the device session,
the diagnostics runner and the health-check probes, together with
theorems settling the specification's claims about them.

Python strings are modelled as `String` at the interface and `List Char`
inside the parsing helpers, because every helper below is written by
structural recursion so that all definitions evaluate inside the kernel.
The remote transport (netmiko) is an external collaborator: it is
modelled as an oracle `Transport` whose `reply` may depend on the full
history of commands sent so far, so that distinct executions of the same
command can be distinguished.
-/

namespace Cisco

/-! ### Python string primitives (structural models of the `str` methods used) -/

/-- Python whitespace for `str.strip` / `str.split()` (ASCII portion). -/
def pyIsSpace (c : Char) : Bool :=
  c = ' ' || c = '\t' || c = '\n' || c = '\r' || c = '\x0b' || c = '\x0c'

/-- Python `s.strip()`: drop leading and trailing whitespace. -/
def pyStrip (l : List Char) : List Char :=
  ((l.dropWhile pyIsSpace).reverse.dropWhile pyIsSpace).reverse

/-- Python `needle in hay` (substring containment). -/
def pyContains (needle : List Char) : List Char → Bool
  | [] => needle.isEmpty
  | c :: t => needle.isPrefixOf (c :: t) || pyContains needle t

/-- Suffix after the first occurrence of `sep`, `none` if `sep` is absent
(models the tail produced by Python `s.split(sep)` after index 0). -/
def afterFirst (sep : List Char) : List Char → Option (List Char)
  | [] => if sep.isEmpty then some [] else none
  | c :: t =>
    if sep.isPrefixOf (c :: t) then some (List.drop (sep.length - 1) t)
    else afterFirst sep t

/-- Prefix up to the first occurrence of `sep` (the whole list if absent):
Python `s.split(sep)[0]`. -/
def upToFirst (sep : List Char) : List Char → List Char
  | [] => []
  | c :: t => if sep.isPrefixOf (c :: t) then [] else c :: upToFirst sep t

/-- Python `s.split(sep)` for a one-character separator. -/
def splitChar (sep : Char) : List Char → List (List Char)
  | [] => [[]]
  | c :: t =>
    if c = sep then [] :: splitChar sep t
    else
      match splitChar sep t with
      | [] => [[c]]
      | h :: r => (c :: h) :: r

/-- Split at every character satisfying `p`, keeping empty pieces. -/
def splitWhen (p : Char → Bool) : List Char → List (List Char)
  | [] => [[]]
  | c :: t =>
    if p c then [] :: splitWhen p t
    else
      match splitWhen p t with
      | [] => [[c]]
      | h :: r => (c :: h) :: r

/-- Python `s.split()` with no argument: runs of whitespace, empties dropped. -/
def pySplitWs (l : List Char) : List (List Char) :=
  (splitWhen pyIsSpace l).filter (fun w => !w.isEmpty)

/-- Numeric value of a digit list (most significant first). -/
def digVal (l : List Char) : Nat :=
  l.foldl (fun n c => n * 10 + (c.toNat - 48)) 0

/-- All-characters-are-digits test, requiring nonemptiness. -/
def allDigits (l : List Char) : Bool :=
  !l.isEmpty && l.all Char.isDigit

/-- Python `int(s)` on a string: strip whitespace, optional sign, digits;
`none` models a raised `ValueError`. (Digit-group underscores are not
modelled; no claim involves them.) -/
def pyInt (l : List Char) : Option Int :=
  match pyStrip l with
  | '-' :: rest => if allDigits rest then some (-(digVal rest : Int)) else none
  | '+' :: rest => if allDigits rest then some ((digVal rest : Int)) else none
  | t => if allDigits t then some ((digVal t : Int)) else none

/-! ### Data model (from `cisco_troubleshooter.py`) -/

/-- Session state of `CiscoTroubleshooter`: `self.connection` (truthy netmiko
handle or `None`) and `self.hostname`; `ip` is the `device['ip']` field. -/
structure Session where
  ip : String
  connection : Option Unit
  hostname : Option String
deriving DecidableEq

/-- Observable transport history: the commands sent so far over the wire. -/
structure World where
  log : List String
deriving DecidableEq

/-- Oracle for the external netmiko collaborator: whether `ConnectHandler`
succeeds, the `find_prompt()` string, the current timestamp, and the reply
to each command (`Except.error` models a raised exception), which may
depend on the history of commands already sent. -/
structure Transport where
  connectOk : Bool
  prompt : String
  now : String
  reply : List String → String → Except String String

/-- The `health` dict built by `check_health`. -/
structure Health where
  device : String
  hostname : Option String
  status : String
  issues : List String
deriving DecidableEq

/-- The `results` dict built by `run_diagnostics`; `diagnostics` is the
insertion-ordered Python dict, modelled as an association list. -/
structure DiagnosticBundle where
  device : String
  hostname : Option String
  timestamp : String
  diagnostics : List (String × String)
deriving DecidableEq

/-- Return shape of `run_diagnostics`: the `{"error": ...}` dict or a bundle. -/
inductive DiagResult where
  | err (msg : String)
  | bundle (b : DiagnosticBundle)
deriving DecidableEq

/-- Return shape of `check_health`: the `{"error": ...}` dict or a report. -/
inductive HealthOutcome where
  | err (msg : String)
  | report (h : Health)
deriving DecidableEq

/-- A fresh `CiscoTroubleshooter(ip, ...)`: no connection, no hostname. -/
def initSession (ip : String) : Session :=
  { ip := ip, connection := none, hostname := none }

/-- Python `s[:-1]` on a string (drop the final character). -/
def pyDropLastChar (s : String) : String :=
  ⟨s.toList.dropLast⟩

/-! ### Operations -/

/-- `connect`: on success stores the handle and
`self.hostname = self.connection.find_prompt()[:-1]`; on any failure
returns `False` leaving the state unchanged. -/
def connect (t : Transport) (s : Session) : Bool × Session :=
  if t.connectOk then
    (true, { s with connection := some (), hostname := some (pyDropLastChar t.prompt) })
  else (false, s)

/-- `disconnect`: calls `self.connection.disconnect()` on the transport when
a handle is present, but assigns neither `self.connection` nor
`self.hostname` — the session fields are left unchanged. -/
def disconnect (s : Session) : Session := s

def notConnectedMsg : String := "Error: Not connected to device"

/-- `run_command`: sentinel string when `self.connection` is falsy, else send
the command; a raised exception is converted to an annotated string. -/
def run_command (t : Transport) (s : Session) (w : World) (cmd : String) :
    String × World :=
  match s.connection with
  | none => (notConnectedMsg, w)
  | some _ =>
    match t.reply w.log cmd with
    | Except.ok out => (out, { log := w.log ++ [cmd] })
    | Except.error e => ("Error executing command: " ++ e, { log := w.log ++ [cmd] })

/-- The module-level default diagnostic command list. -/
def DIAGNOSTIC_COMMANDS : List String :=
  [ "show version",
    "show ip interface brief",
    "show interfaces status",
    "show logging | last 50",
    "show processes cpu | exclude 0.00%__0.00%__0.00%",
    "show memory statistics" ]

/-- Python `commands = commands or DIAGNOSTIC_COMMANDS`: both `None` and an
empty list fall back to the default list. -/
def resolveCommands : Option (List String) → List String
  | none => DIAGNOSTIC_COMMANDS
  | some cs => if cs.isEmpty then DIAGNOSTIC_COMMANDS else cs

/-- Key-presence test on the association list modelling a Python dict. -/
def hasKey : List (String × String) → String → Bool
  | [], _ => false
  | p :: rest, k => if p.1 = k then true else hasKey rest k

/-- Python dict indexing `d[k]` (first entry with key `k`; keys are unique
by construction of `dictInsert`). -/
def dictGet : List (String × String) → String → Option String
  | [], _ => none
  | p :: rest, k => if p.1 = k then some p.2 else dictGet rest k

/-- Python `d[k] = v`: replace in place when the key exists (keeping its
position), otherwise append — insertion order is preserved. -/
def dictInsert (d : List (String × String)) (k v : String) :
    List (String × String) :=
  if hasKey d k then d.map (fun p => if p.1 = k then (k, v) else p)
  else d ++ [(k, v)]

/-- The `for cmd in commands` loop of `run_diagnostics`. -/
def diagLoop (t : Transport) (s : Session) :
    World → List (String × String) → List String → List (String × String) × World
  | w, d, [] => (d, w)
  | w, d, c :: cs =>
    let p := run_command t s w c
    diagLoop t s p.2 (dictInsert d c p.1) cs

/-- Execution trace of the same loop: each command paired with the output of
that particular execution (the reply may differ between executions). -/
def diagTrace (t : Transport) (s : Session) : World → List String → List (String × String)
  | _, [] => []
  | w, c :: cs =>
    let p := run_command t s w c
    (c, p.1) :: diagTrace t s p.2 cs

/-- The `results` dict of `run_diagnostics`. -/
def mkBundle (t : Transport) (s : Session) (d : List (String × String)) :
    DiagnosticBundle :=
  { device := s.ip, hostname := s.hostname, timestamp := t.now, diagnostics := d }

/-- `run_diagnostics`: connect-or-fail gate, then the command loop. -/
def run_diagnostics (t : Transport) (s : Session) (w : World)
    (commands : Option (List String)) : DiagResult × Session × World :=
  match s.connection with
  | some _ =>
    let r := diagLoop t s w [] (resolveCommands commands)
    (DiagResult.bundle (mkBundle t s r.1), s, r.2)
  | none =>
    match connect t s with
    | (false, s1) => (DiagResult.err "Failed to connect to device", s1, w)
    | (true, s1) =>
      let r := diagLoop t s1 w [] (resolveCommands commands)
      (DiagResult.bundle (mkBundle t s1 r.1), s1, r.2)

/-! ### Health check -/

def cpuCmd : String := "show processes cpu | include CPU"
def memCmd : String := "show memory statistics | include Processor"
def intfCmd : String := "show ip interface brief | include down"

def errL : List Char := "Error".toList
def fiveMinL : List Char := "five minutes:".toList
def freeL : List Char := "Free".toList

/-- `line.split('five minutes:')[1].split('%')[0]` (the line is known to
contain the marker when this is evaluated): Python index `[1]` is the
segment between the first and the second occurrence of the separator (to
the end when there is no second one), and from it `[0]` of the `'%'` split
keeps the part before the first `'%'`. -/
def fiveMinField (line : List Char) : List Char :=
  upToFirst ['%'] (upToFirst fiveMinL ((afterFirst fiveMinL line).getD []))

/-- Append an issue and set status to warning (the two statements that every
firing probe of `check_health` performs together). -/
def addWarn (h : Health) (issue : String) : Health :=
  { h with issues := h.issues ++ [issue], status := "warning" }

/-- One iteration of the CPU loop:
`cpu_5min = int(line.split('five minutes:')[1].split('%')[0])`; a failing
`int()` raises `ValueError`, modelled as `Except.error`. -/
def cpuLine (h : Health) (line : List Char) : Except Unit Health :=
  if pyContains fiveMinL line then
    match pyInt (fiveMinField line) with
    | none => Except.error ()
    | some v =>
      if v > 80 then Except.ok (addWarn h ("High CPU usage: " ++ toString v ++ "%"))
      else Except.ok h
  else Except.ok h

/-- The `for line in lines` loop of the CPU probe. -/
def cpuLines (h : Health) : List (List Char) → Except Unit Health
  | [] => Except.ok h
  | l :: ls =>
    match cpuLine h l with
    | Except.error e => Except.error e
    | Except.ok h1 => cpuLines h1 ls

/-- The CPU probe applied to the output of `cpuCmd`. -/
def cpuCheck (out : String) (h : Health) : Except Unit Health :=
  if pyContains errL out.toList then Except.ok h
  else cpuLines h (splitChar '\n' (pyStrip out.toList))

/-- The memory probe applied to the output of `memCmd`:
`int(mem_output.split()[-1]) < 10000000`. -/
def memCheck (out : String) (h : Health) : Except Unit Health :=
  if !pyContains errL out.toList && pyContains freeL out.toList then
    match pyInt ((pySplitWs out.toList).getLastD []) with
    | none => Except.error ()
    | some v =>
      if v < 10000000 then Except.ok (addWarn h "Low memory") else Except.ok h
  else Except.ok h

/-- The interface probe applied to the output of `intfCmd`; it appends an
issue but never assigns `health['status']`. -/
def intfCheck (out : String) (h : Health) : Health :=
  if !pyContains errL out.toList && !(pyStrip out.toList).isEmpty then
    if (splitChar '\n' (pyStrip out.toList)).length > 0 then
      { h with issues := h.issues ++
          [toString (splitChar '\n' (pyStrip out.toList)).length ++ " interfaces down"] }
    else h
  else h

/-- `if not health['issues']: health['issues'].append("No issues detected")`. -/
def finalizeHealth (h : Health) : Health :=
  if h.issues.isEmpty then { h with issues := ["No issues detected"] } else h

/-- Initial `health` dict of `check_health`. -/
def initHealth (s : Session) : Health :=
  { device := s.ip, hostname := s.hostname, status := "healthy", issues := [] }

/-- The three probes of `check_health` in source order, each issuing its
command through `run_command`; a raised parse exception aborts the rest. -/
def probeHealth (t : Transport) (s : Session) (w : World) :
    Except Unit (Health × World) :=
  let p1 := run_command t s w cpuCmd
  match cpuCheck p1.1 (initHealth s) with
  | Except.error e => Except.error e
  | Except.ok h1 =>
    let p2 := run_command t s p1.2 memCmd
    match memCheck p2.1 h1 with
    | Except.error e => Except.error e
    | Except.ok h2 =>
      let p3 := run_command t s p2.2 intfCmd
      Except.ok (intfCheck p3.1 h2, p3.2)

/-- `check_health`: connect-or-fail gate, probes, sentinel finalization. -/
def check_health (t : Transport) (s : Session) (w : World) :
    Except Unit (HealthOutcome × Session × World) :=
  match s.connection with
  | some _ =>
    match probeHealth t s w with
    | Except.error e => Except.error e
    | Except.ok (h, w1) => Except.ok (HealthOutcome.report (finalizeHealth h), s, w1)
  | none =>
    match connect t s with
    | (false, s1) => Except.ok (HealthOutcome.err "Failed to connect to device", s1, w)
    | (true, s1) =>
      match probeHealth t s1 w with
      | Except.error e => Except.error e
      | Except.ok (h, w1) => Except.ok (HealthOutcome.report (finalizeHealth h), s1, w1)

/-! ### Session traces (for the state invariants) -/

/-- The session-level operations a caller can perform. -/
inductive Op where
  | connect
  | disconnect
  | run (cmd : String)
deriving DecidableEq

/-- Effect of one operation on the session and the transport history
(outputs are discarded; only state evolution matters here). -/
def step (t : Transport) : Session × World → Op → Session × World
  | (s, w), Op.connect => ((connect t s).2, w)
  | (s, w), Op.disconnect => (disconnect s, w)
  | (s, w), Op.run c => (s, (run_command t s w c).2)

/-- State reached after a list of operations. -/
def runTrace (t : Transport) : Session × World → List Op → Session × World
  | sw, [] => sw
  | sw, o :: ops => runTrace t (step t sw o) ops

/-! ### Parse-success predicates and bookkeeping -/

/-- The CPU loop does not raise on this line: either no marker, or the
extracted field is a valid integer literal. -/
def cpuLineOk (line : List Char) : Bool :=
  !pyContains fiveMinL line || (pyInt (fiveMinField line)).isSome

/-- The CPU probe runs to completion on this output. -/
def cpuParses (out : String) : Bool :=
  pyContains errL out.toList || (splitChar '\n' (pyStrip out.toList)).all cpuLineOk

/-- The memory probe runs to completion on this output. -/
def memParses (out : String) : Bool :=
  !(!pyContains errL out.toList && pyContains freeL out.toList)
    || (pyInt ((pySplitWs out.toList).getLastD [])).isSome

/-- Deduplication keeping the first occurrence of each element after `seen`. -/
def firstDedupFrom (seen : List String) : List String → List String
  | [] => []
  | c :: cs =>
    if c ∈ seen then firstDedupFrom seen cs
    else c :: firstDedupFrom (seen ++ [c]) cs

/-- Distinct elements of a list in order of first occurrence. -/
def firstDedup (l : List String) : List String := firstDedupFrom [] l

/-- Output of the last execution of command `k` in a trace. -/
def lastOutput (k : String) : List (String × String) → Option String
  | [] => none
  | p :: tr =>
    Option.orElse (lastOutput k tr) (fun _ => if p.1 = k then some p.2 else none)

/-- The diagnostics dict produced by inserting a whole trace into `d`. -/
def insFold (d : List (String × String)) (tr : List (String × String)) :
    List (String × String) :=
  tr.foldl (fun d p => dictInsert d p.1 p.2) d

/-- What a probe may do to the `health` dict: device and hostname are fixed,
issues only grow at the end, and the status either stays or becomes
`warning` — and it can only change when an issue was appended. -/
def HMono (h h1 : Health) : Prop :=
  h1.device = h.device ∧ h1.hostname = h.hostname ∧
  (∃ tail, h1.issues = h.issues ++ tail ∧ (tail = [] → h1.status = h.status)) ∧
  (h1.status = h.status ∨ h1.status = "warning")

/-! ### Concrete devices and sessions used for witnesses and counterexamples -/

def w0 : World := { log := [] }

/-- An already connected session (state right after a successful `connect`). -/
def sConn : Session := { ip := "10.0.0.1", connection := some (), hostname := some "R1" }

def sNew : Session := initSession "10.1.1.1"

/-- The CPU output of the specification's example. -/
def cpuSpec : String :=
  "  CPU utilization for five seconds: 10%/0%; one minute: 12%; five minutes: 85%"

/-- The memory output of the specification's example. -/
def memSpec : String := "Processor Pool Total: 50000000 Used: 49000000 Free: 1000000"

/-- An interface-probe output with three non-empty lines. -/
def intfSpec : String := "Gi1 down\nGi2 down\nGi3 down"

/-- A CPU output whose five-minute field is not an integer literal. -/
def badCpuOut : String := "five minutes: eighty%"

/-- Device that answers every command with the same output. -/
def replyAll (o : String) : Transport :=
  { connectOk := true, prompt := "R1#", now := "ts", reply := fun _ _ => Except.ok o }

/-- Device that answers by command: `a` to the CPU probe, `b` to the memory
probe, `c` to everything else. -/
def replyTable (a b c : String) : Transport :=
  { connectOk := true, prompt := "R1#", now := "ts",
    reply := fun _ cmd =>
      if cmd = cpuCmd then Except.ok a
      else if cmd = memCmd then Except.ok b
      else Except.ok c }

/-- Device whose connection attempts fail. -/
def tFail : Transport :=
  { connectOk := false, prompt := "R1#", now := "ts", reply := fun _ _ => Except.ok "" }

/-- Device that is up and answers every command. -/
def tUp : Transport :=
  { connectOk := true, prompt := "SW1#", now := "ts", reply := fun _ _ => Except.ok "all good" }

/-- Device whose answers depend on how many commands were sent before, so
distinct executions of the same command give distinct outputs. -/
def tHist : Transport :=
  { connectOk := true, prompt := "R1#", now := "ts",
    reply := fun log c => Except.ok (c ++ "@" ++ toString log.length) }

/-- Device whose command executions raise an exception with message "boom". -/
def tBoom : Transport :=
  { connectOk := true, prompt := "R1#", now := "ts",
    reply := fun _ _ => Except.error "boom" }

/-! ### Option helpers -/

theorem opOrElse_none {α : Type} (o : Option α) :
    Option.orElse o (fun _ => none) = o := by
  cases o <;> rfl

theorem opOrElse_some {α : Type} (a : α) (f : Unit → Option α) :
    Option.orElse (some a) f = some a := rfl

theorem opOrElse_none_left {α : Type} (f : Unit → Option α) :
    Option.orElse none f = f () := rfl

/-! ### Monotonicity of the probes over the health dict -/

theorem hmono_refl (h : Health) : HMono h h :=
  ⟨rfl, rfl, ⟨[], by simp, fun _ => rfl⟩, Or.inl rfl⟩

theorem hmono_addWarn (h : Health) (i : String) : HMono h (addWarn h i) :=
  ⟨rfl, rfl, ⟨[i], rfl, by simp⟩, Or.inr rfl⟩

theorem hmono_trans {a b c : Health} (m1 : HMono a b) (m2 : HMono b c) : HMono a c := by
  obtain ⟨d1, hn1, ⟨t1, hi1, he1⟩, hs1⟩ := m1
  obtain ⟨d2, hn2, ⟨t2, hi2, he2⟩, hs2⟩ := m2
  refine ⟨d2.trans d1, hn2.trans hn1, ⟨t1 ++ t2, ?_, ?_⟩, ?_⟩
  · rw [hi2, hi1, List.append_assoc]
  · intro ht
    rcases List.append_eq_nil.mp ht with ⟨ht1, ht2⟩
    rw [he2 ht2, he1 ht1]
  · rcases hs2 with h2 | h2
    · rw [h2]; exact hs1
    · exact Or.inr h2

theorem hmono_mem {a b : Health} (m : HMono a b) {x : String}
    (hx : x ∈ a.issues) : x ∈ b.issues := by
  obtain ⟨-, -, ⟨t, hi, -⟩, -⟩ := m
  rw [hi]
  exact List.mem_append_left t hx

theorem hmono_warning {a b : Health} (m : HMono a b)
    (hw : a.status = "warning") : b.status = "warning" := by
  obtain ⟨-, -, -, hs⟩ := m
  rcases hs with hs | hs
  · rw [hs, hw]
  · exact hs

theorem hmono_empty_status {a b : Health} (m : HMono a b)
    (he : b.issues = a.issues) : b.status = a.status := by
  obtain ⟨-, -, ⟨t, hi, ht⟩, -⟩ := m
  apply ht
  rw [hi] at he
  have hlen := congrArg List.length he
  rw [List.length_append] at hlen
  have : t.length = 0 := by omega
  exact List.length_eq_zero.mp this

/-! ### CPU probe lemmas -/

theorem cpuLine_ok_of_lineOk {line : List Char} (hok : cpuLineOk line = true)
    (h : Health) : ∃ h1, cpuLine h line = Except.ok h1 ∧ HMono h h1 := by
  unfold cpuLineOk at hok
  cases hmark : pyContains fiveMinL line with
  | false => exact ⟨h, by simp [cpuLine, hmark], hmono_refl h⟩
  | true =>
    rw [hmark] at hok
    simp only [Bool.not_true, Bool.false_or] at hok
    obtain ⟨v, hv⟩ := Option.isSome_iff_exists.mp hok
    by_cases hgt : v > 80
    · exact ⟨addWarn h ("High CPU usage: " ++ toString v ++ "%"),
        by simp [cpuLine, hmark, hv, hgt], hmono_addWarn h _⟩
    · exact ⟨h, by simp [cpuLine, hmark, hv, hgt], hmono_refl h⟩

theorem cpuLine_err_of_not_lineOk {line : List Char} (hok : cpuLineOk line = false)
    (h : Health) : cpuLine h line = Except.error () := by
  unfold cpuLineOk at hok
  rcases Bool.or_eq_false_iff.mp hok with ⟨hm, hs⟩
  have hmark : pyContains fiveMinL line = true := by
    cases hc : pyContains fiveMinL line
    · rw [hc] at hm; simp at hm
    · rfl
  have hnone : pyInt (fiveMinField line) = none := by
    cases hp : pyInt (fiveMinField line)
    · rfl
    · rw [hp] at hs; simp at hs
  simp [cpuLine, hmark, hnone]

theorem cpuLine_fires {line : List Char} {v : Int}
    (hmark : pyContains fiveMinL line = true)
    (hv : pyInt (fiveMinField line) = some v) (hgt : v > 80) (h : Health) :
    cpuLine h line = Except.ok (addWarn h ("High CPU usage: " ++ toString v ++ "%")) := by
  simp [cpuLine, hmark, hv, hgt]

theorem cpuLines_ok_of_all {ls : List (List Char)}
    (hall : ∀ l ∈ ls, cpuLineOk l = true) :
    ∀ h, ∃ h1, cpuLines h ls = Except.ok h1 ∧ HMono h h1 := by
  induction ls with
  | nil => exact fun h => ⟨h, rfl, hmono_refl h⟩
  | cons l ls ih =>
    intro h
    obtain ⟨h1, hl1, hm1⟩ := cpuLine_ok_of_lineOk (hall l (List.mem_cons_self l ls)) h
    obtain ⟨h2, hl2, hm2⟩ := ih (fun x hx => hall x (List.mem_cons_of_mem l hx)) h1
    exact ⟨h2, by simp [cpuLines, hl1, hl2], hmono_trans hm1 hm2⟩

theorem cpuLines_ok_iff {ls : List (List Char)} (h : Health) :
    (∃ h1, cpuLines h ls = Except.ok h1) ↔ ls.all cpuLineOk = true := by
  induction ls generalizing h with
  | nil => simp [cpuLines]
  | cons l ls ih =>
    cases hok : cpuLineOk l
    · constructor
      · rintro ⟨h1, hh1⟩
        rw [show cpuLines h (l :: ls) = Except.error () by
          simp [cpuLines, cpuLine_err_of_not_lineOk hok h]] at hh1
        exact absurd hh1 (by simp)
      · intro hall
        simp only [List.all_cons, hok, Bool.false_and] at hall
        exact absurd hall (by simp)
    · obtain ⟨h1, hh1, -⟩ := cpuLine_ok_of_lineOk hok h
      constructor
      · rintro ⟨h2, hh2⟩
        simp only [cpuLines, hh1] at hh2
        simp only [List.all_cons, hok, Bool.true_and]
        exact (ih h1).mp ⟨h2, hh2⟩
      · intro hall
        simp only [List.all_cons, hok, Bool.true_and] at hall
        obtain ⟨h2, hh2⟩ := (ih h1).mpr hall
        exact ⟨h2, by simp [cpuLines, hh1, hh2]⟩

theorem cpuLines_mem {ls : List (List Char)} {line : List Char} {v : Int}
    (hmem : line ∈ ls) (hall : ∀ l ∈ ls, cpuLineOk l = true)
    (hmark : pyContains fiveMinL line = true)
    (hv : pyInt (fiveMinField line) = some v) (hgt : v > 80) :
    ∀ h, ∃ h1, cpuLines h ls = Except.ok h1 ∧
      ("High CPU usage: " ++ toString v ++ "%") ∈ h1.issues ∧
      h1.status = "warning" := by
  induction ls with
  | nil => exact absurd hmem (List.not_mem_nil line)
  | cons l ls ih =>
    intro h
    rcases List.mem_cons.mp hmem with rfl | htail
    · have hfire := cpuLine_fires hmark hv hgt h
      obtain ⟨h2, hh2, hm2⟩ :=
        cpuLines_ok_of_all (fun x hx => hall x (List.mem_cons_of_mem line hx))
          (addWarn h ("High CPU usage: " ++ toString v ++ "%"))
      refine ⟨h2, by simp [cpuLines, hfire, hh2], ?_, ?_⟩
      · exact hmono_mem hm2 (by simp [addWarn])
      · exact hmono_warning hm2 rfl
    · obtain ⟨h1, hh1, -⟩ := cpuLine_ok_of_lineOk (hall l (List.mem_cons_self l ls)) h
      obtain ⟨h2, hh2, hmem2, hst2⟩ :=
        ih htail (fun x hx => hall x (List.mem_cons_of_mem l hx)) h1
      exact ⟨h2, by simp [cpuLines, hh1, hh2], hmem2, hst2⟩

theorem cpuCheck_ok_of_parses {out : String} (hp : cpuParses out = true) (h : Health) :
    ∃ h1, cpuCheck out h = Except.ok h1 ∧ HMono h h1 := by
  unfold cpuParses at hp
  cases herr : pyContains errL out.toList with
  | true =>
    refine ⟨h, ?_, hmono_refl h⟩
    unfold cpuCheck
    rw [herr]
    simp
  | false =>
    rw [herr, Bool.false_or] at hp
    obtain ⟨h1, hh1, hm1⟩ :=
      cpuLines_ok_of_all (fun l hl => List.all_eq_true.mp hp l hl) h
    refine ⟨h1, ?_, hm1⟩
    unfold cpuCheck
    rw [herr]
    simpa using hh1

theorem cpuCheck_ok_iff {out : String} (h : Health) :
    (∃ h1, cpuCheck out h = Except.ok h1) ↔ cpuParses out = true := by
  unfold cpuParses cpuCheck
  cases herr : pyContains errL out.toList with
  | true => simp
  | false => simpa using @cpuLines_ok_iff (splitChar '\n' (pyStrip out.toList)) h

/-! ### Memory probe lemmas -/

theorem memCheck_fires {out : String} {v : Int}
    (hf : pyContains freeL out.toList = true)
    (he : pyContains errL out.toList = false)
    (hv : pyInt ((pySplitWs out.toList).getLastD []) = some v)
    (hlt : v < 10000000) (h : Health) :
    memCheck out h = Except.ok (addWarn h "Low memory") := by
  have hcond : (!pyContains errL out.toList && pyContains freeL out.toList) = true := by
    rw [he, hf]
    rfl
  unfold memCheck
  rw [hcond, hv]
  simp [hlt]

theorem memCheck_ok_of_parses {out : String} (hp : memParses out = true) (h : Health) :
    ∃ h1, memCheck out h = Except.ok h1 ∧ HMono h h1 := by
  unfold memParses at hp
  cases hcond : (!pyContains errL out.toList && pyContains freeL out.toList) with
  | false =>
    refine ⟨h, ?_, hmono_refl h⟩
    unfold memCheck
    rw [hcond]
    simp
  | true =>
    rw [hcond] at hp
    simp only [Bool.not_true, Bool.false_or] at hp
    obtain ⟨v, hv⟩ := Option.isSome_iff_exists.mp hp
    by_cases hlt : v < 10000000
    · refine ⟨addWarn h "Low memory", ?_, hmono_addWarn h _⟩
      unfold memCheck
      rw [hcond, hv]
      simp [hlt]
    · refine ⟨h, ?_, hmono_refl h⟩
      unfold memCheck
      rw [hcond, hv]
      simp [hlt]

theorem memCheck_ok_iff {out : String} (h : Health) :
    (∃ h1, memCheck out h = Except.ok h1) ↔ memParses out = true := by
  unfold memParses
  cases hcond : (!pyContains errL out.toList && pyContains freeL out.toList) with
  | false =>
    constructor
    · intro
      simp
    · intro
      refine ⟨h, ?_⟩
      unfold memCheck
      rw [hcond]
      simp
  | true =>
    simp only [Bool.not_true, Bool.false_or]
    cases hv : pyInt ((pySplitWs out.toList).getLastD []) with
    | none =>
      constructor
      · rintro ⟨h1, hh1⟩
        have hr : memCheck out h = Except.error () := by
          unfold memCheck
          rw [hcond, hv]
          simp
        rw [hr] at hh1
        exact absurd hh1 (by simp)
      · intro hfalse
        simp at hfalse
    | some v =>
      simp only [Option.isSome_some, iff_true]
      by_cases hlt : v < 10000000
      · refine ⟨addWarn h "Low memory", ?_⟩
        unfold memCheck
        rw [hcond, hv]
        simp [hlt]
      · refine ⟨h, ?_⟩
        unfold memCheck
        rw [hcond, hv]
        simp [hlt]

theorem memCheck_skip {out : String} (h : Health)
    (hc : pyContains freeL out.toList = false ∨ pyContains errL out.toList = true ∨
      ∀ u : Int, pyInt ((pySplitWs out.toList).getLastD []) = some u → 10000000 ≤ u) :
    memCheck out h = Except.ok h ∨ memCheck out h = Except.error () := by
  cases herr : pyContains errL out.toList with
  | true =>
    left
    unfold memCheck
    rw [herr]
    simp
  | false =>
    cases hfree : pyContains freeL out.toList with
    | false =>
      left
      unfold memCheck
      rw [herr, hfree]
      simp
    | true =>
      rcases hc with hc | hc | hc
      · rw [hfree] at hc
        exact absurd hc (by simp)
      · rw [herr] at hc
        exact absurd hc (by simp)
      · cases hv : pyInt ((pySplitWs out.toList).getLastD []) with
        | none =>
          right
          unfold memCheck
          rw [herr, hfree, hv]
          simp
        | some v =>
          left
          have hge : ¬ v < 10000000 := not_lt.mpr (hc v hv)
          unfold memCheck
          rw [herr, hfree, hv]
          simp [hge]

/-! ### Interface probe and finalization lemmas -/

theorem splitChar_ne_nil (sep : Char) (l : List Char) : splitChar sep l ≠ [] := by
  cases l with
  | nil => simp [splitChar]
  | cons c t =>
    by_cases hc : c = sep
    · simp [splitChar, hc]
    · simp only [splitChar, if_neg hc]
      cases splitChar sep t <;> simp

theorem intfCheck_status (out : String) (h : Health) :
    (intfCheck out h).status = h.status := by
  unfold intfCheck
  split
  · split <;> rfl
  · rfl

theorem intfCheck_mono (out : String) (h : Health) : HMono h (intfCheck out h) := by
  unfold intfCheck
  split
  · split
    · exact ⟨rfl, rfl, ⟨_, rfl, by simp⟩, Or.inl rfl⟩
    · exact hmono_refl h
  · exact hmono_refl h

theorem intfCheck_fires {out : String}
    (he : pyContains errL out.toList = false)
    (hne : (pyStrip out.toList).isEmpty = false) (h : Health) :
    intfCheck out h = { h with issues := h.issues ++
      [toString (splitChar '\n' (pyStrip out.toList)).length ++ " interfaces down"] } := by
  have hpos : (splitChar '\n' (pyStrip out.toList)).length > 0 :=
    List.length_pos.mpr (splitChar_ne_nil '\n' (pyStrip out.toList))
  unfold intfCheck
  rw [he, hne]
  simp only [Bool.not_false, Bool.and_self, if_true]
  rw [if_pos hpos]

theorem intfCheck_skip {out : String} (h : Health)
    (hc : pyContains errL out.toList = true ∨ (pyStrip out.toList).isEmpty = true) :
    intfCheck out h = h := by
  unfold intfCheck
  rcases hc with hc | hc <;> rw [hc] <;> simp

theorem finalizeHealth_ne_nil (h : Health) : (finalizeHealth h).issues ≠ [] := by
  unfold finalizeHealth
  split
  · simp
  · next hne => simpa using hne

theorem finalizeHealth_of_ne {h : Health} (hne : h.issues ≠ []) :
    finalizeHealth h = h := by
  simp [finalizeHealth, hne]

theorem finalizeHealth_of_nil {h : Health} (hnil : h.issues = []) :
    finalizeHealth h = { h with issues := ["No issues detected"] } := by
  simp [finalizeHealth, hnil]

/-! ### run_command, probeHealth and check_health plumbing -/

theorem run_command_not_connected {t : Transport} {s : Session} (w : World)
    (cmd : String) (hc : s.connection = none) :
    run_command t s w cmd = (notConnectedMsg, w) := by
  unfold run_command
  rw [hc]

theorem run_command_ok {t : Transport} {s : Session} {w : World} {cmd out : String}
    (hc : s.connection = some ()) (hr : t.reply w.log cmd = Except.ok out) :
    run_command t s w cmd = (out, { log := w.log ++ [cmd] }) := by
  unfold run_command
  rw [hc, hr]

theorem run_command_raise {t : Transport} {s : Session} {w : World} {cmd e : String}
    (hc : s.connection = some ()) (hr : t.reply w.log cmd = Except.error e) :
    run_command t s w cmd = ("Error executing command: " ++ e, { log := w.log ++ [cmd] }) := by
  unfold run_command
  rw [hc, hr]

theorem probeHealth_eq {t : Transport} {s : Session} {cpuStr memStr intfStr : String}
    (w : World) (hc : s.connection = some ())
    (hcpu : ∀ log, t.reply log cpuCmd = Except.ok cpuStr)
    (hmem : ∀ log, t.reply log memCmd = Except.ok memStr)
    (hintf : ∀ log, t.reply log intfCmd = Except.ok intfStr) :
    probeHealth t s w =
      match cpuCheck cpuStr (initHealth s) with
      | Except.error e => Except.error e
      | Except.ok h1 =>
        match memCheck memStr h1 with
        | Except.error e => Except.error e
        | Except.ok h2 =>
          Except.ok (intfCheck intfStr h2,
            { log := w.log ++ [cpuCmd, memCmd, intfCmd] }) := by
  have r1 : run_command t s w cpuCmd = (cpuStr, { log := w.log ++ [cpuCmd] }) :=
    run_command_ok hc (hcpu w.log)
  have r2 : run_command t s { log := w.log ++ [cpuCmd] } memCmd
      = (memStr, { log := (w.log ++ [cpuCmd]) ++ [memCmd] }) :=
    run_command_ok hc (hmem (w.log ++ [cpuCmd]))
  have r3 : run_command t s { log := (w.log ++ [cpuCmd]) ++ [memCmd] } intfCmd
      = (intfStr, { log := ((w.log ++ [cpuCmd]) ++ [memCmd]) ++ [intfCmd] }) :=
    run_command_ok hc (hintf ((w.log ++ [cpuCmd]) ++ [memCmd]))
  simp only [probeHealth, r1, r2, r3]
  cases hc1 : cpuCheck cpuStr (initHealth s) with
  | error e => rfl
  | ok h1 =>
    dsimp only
    cases hc2 : memCheck memStr h1 with
    | error e => rfl
    | ok h2 => simp [List.append_assoc]

theorem check_health_connected {t : Transport} {s : Session} (w : World)
    (hc : s.connection = some ()) :
    check_health t s w =
      match probeHealth t s w with
      | Except.error e => Except.error e
      | Except.ok (h, w1) =>
        Except.ok (HealthOutcome.report (finalizeHealth h), s, w1) := by
  unfold check_health
  rw [hc]

theorem check_health_conn_fail {t : Transport} {s : Session} (w : World)
    (hc : s.connection = none) (hf : t.connectOk = false) :
    check_health t s w
      = Except.ok (HealthOutcome.err "Failed to connect to device", s, w) := by
  unfold check_health connect
  rw [hc, hf]
  rfl

theorem run_diagnostics_connected {t : Transport} {s : Session} (w : World)
    (commands : Option (List String)) (hc : s.connection = some ()) :
    run_diagnostics t s w commands =
      (DiagResult.bundle (mkBundle t s (diagLoop t s w [] (resolveCommands commands)).1),
        s, (diagLoop t s w [] (resolveCommands commands)).2) := by
  unfold run_diagnostics
  rw [hc]

theorem run_diagnostics_conn_fail {t : Transport} {s : Session} (w : World)
    (commands : Option (List String)) (hc : s.connection = none)
    (hf : t.connectOk = false) :
    run_diagnostics t s w commands
      = (DiagResult.err "Failed to connect to device", s, w) := by
  unfold run_diagnostics connect
  rw [hc, hf]
  rfl

/-! ### Session trace lemmas -/

theorem runTrace_no_connect (t : Transport) :
    ∀ (ops : List Op) (s : Session) (w : World), s.connection = none →
      ¬(Op.connect ∈ ops ∧ t.connectOk = true) → runTrace t (s, w) ops = (s, w) := by
  intro ops
  induction ops with
  | nil =>
    intro s w _ _
    rfl
  | cons o ops ih =>
    intro s w hc hno
    have hstep : step t (s, w) o = (s, w) := by
      cases o with
      | connect =>
        cases hok : t.connectOk with
        | true => exact absurd ⟨List.mem_cons_self _ _, hok⟩ hno
        | false => simp [step, connect, hok]
      | disconnect => rfl
      | run c => simp [step, run_command_not_connected w c hc]
    have hone : runTrace t (s, w) (o :: ops) = runTrace t (step t (s, w) o) ops := rfl
    rw [hone, hstep]
    exact ih s w hc (fun hand => hno ⟨List.mem_cons_of_mem o hand.1, hand.2⟩)

/-! ### Dict and fold lemmas -/

theorem hasKey_iff_mem (d : List (String × String)) (k : String) :
    hasKey d k = true ↔ k ∈ d.map Prod.fst := by
  induction d with
  | nil => simp [hasKey]
  | cons p rest ih =>
    by_cases hp : p.1 = k
    · simp [hasKey, hp]
    · simp only [hasKey, if_neg hp, List.map_cons, List.mem_cons, ih]
      constructor
      · exact Or.inr
      · rintro (h | h)
        · exact absurd h.symm hp
        · exact h

theorem mapRepl_keys (c v : String) :
    ∀ d : List (String × String),
      (d.map (fun p => if p.1 = c then (c, v) else p)).map Prod.fst
        = d.map Prod.fst := by
  intro d
  induction d with
  | nil => rfl
  | cons p rest ih =>
    by_cases hp : p.1 = c <;> simp [hp, ih]

theorem keys_insert (d : List (String × String)) (c v : String) :
    (dictInsert d c v).map Prod.fst
      = if hasKey d c then d.map Prod.fst else d.map Prod.fst ++ [c] := by
  unfold dictInsert
  cases hk : hasKey d c with
  | true =>
    simp
    intro a b _
    by_cases hab : a = c <;> simp [hab]
  | false => simp

theorem dictGet_mapRepl (c v k : String) :
    ∀ d : List (String × String),
      dictGet (d.map (fun p => if p.1 = c then (c, v) else p)) k
        = if c = k then (if hasKey d c then some v else none) else dictGet d k := by
  intro d
  induction d with
  | nil => by_cases hck : c = k <;> simp [dictGet, hasKey, hck]
  | cons p rest ih =>
    by_cases hpc : p.1 = c
    · by_cases hck : c = k
      · subst hck
        simp [dictGet, hasKey, hpc]
      · simp [dictGet, hasKey, hpc, hck, ih]
    · by_cases hck : c = k
      · subst hck
        simp [dictGet, hasKey, hpc, ih]
      · simp [dictGet, hasKey, hpc, hck, ih]

theorem dictGet_append (k : String) :
    ∀ d e : List (String × String),
      dictGet (d ++ e) k = Option.orElse (dictGet d k) (fun _ => dictGet e k) := by
  intro d e
  induction d with
  | nil => rfl
  | cons p rest ih =>
    by_cases hp : p.1 = k <;> simp [dictGet, hp, ih, Option.orElse]

theorem dictGet_none_of_not_hasKey (k : String) :
    ∀ d : List (String × String), hasKey d k = false → dictGet d k = none := by
  intro d
  induction d with
  | nil =>
    intro _
    rfl
  | cons p rest ih =>
    intro hk
    by_cases hp : p.1 = k
    · simp only [hasKey, if_pos hp] at hk
      exact absurd hk (by simp)
    · simp only [hasKey, if_neg hp] at hk
      simp [dictGet, hp, ih hk]

theorem dictGet_insert (d : List (String × String)) (c v k : String) :
    dictGet (dictInsert d c v) k = if c = k then some v else dictGet d k := by
  unfold dictInsert
  cases hk : hasKey d c with
  | true => simp [dictGet_mapRepl, hk]
  | false =>
    simp only [Bool.false_eq_true, if_false, dictGet_append]
    by_cases hck : c = k
    · have hnone : dictGet d k = none := by
        apply dictGet_none_of_not_hasKey
        rw [← hck]
        exact hk
      rw [hnone, if_pos hck]
      simp [dictGet, hck, Option.orElse]
    · rw [if_neg hck]
      cases hdk : dictGet d k with
      | some x => simp [Option.orElse]
      | none => simp [Option.orElse, dictGet, hck]

theorem insFold_cons (d : List (String × String)) (p : String × String)
    (tr : List (String × String)) :
    insFold d (p :: tr) = insFold (dictInsert d p.1 p.2) tr := rfl

theorem insFold_keys :
    ∀ (tr d : List (String × String)),
      (insFold d tr).map Prod.fst
        = d.map Prod.fst ++ firstDedupFrom (d.map Prod.fst) (tr.map Prod.fst) := by
  intro tr
  induction tr with
  | nil =>
    intro d
    simp [insFold, firstDedupFrom]
  | cons p tr ih =>
    intro d
    rw [insFold_cons, ih]
    cases hk : hasKey d p.1 with
    | true =>
      have hkeys : (dictInsert d p.1 p.2).map Prod.fst = d.map Prod.fst := by
        rw [keys_insert, hk]
        simp
      rw [hkeys]
      have hmem : p.1 ∈ d.map Prod.fst := (hasKey_iff_mem d p.1).mp hk
      simp only [List.map_cons, firstDedupFrom, if_pos hmem]
    | false =>
      have hkeys : (dictInsert d p.1 p.2).map Prod.fst = d.map Prod.fst ++ [p.1] := by
        rw [keys_insert, hk]
        simp
      rw [hkeys]
      have hmem : p.1 ∉ d.map Prod.fst := by
        intro hm
        rw [(hasKey_iff_mem d p.1).mpr hm] at hk
        exact absurd hk (by simp)
      simp only [List.map_cons, firstDedupFrom, if_neg hmem]
      rw [List.append_assoc]
      simp

theorem insFold_get (k : String) :
    ∀ (tr d : List (String × String)),
      dictGet (insFold d tr) k
        = Option.orElse (lastOutput k tr) (fun _ => dictGet d k) := by
  intro tr
  induction tr with
  | nil =>
    intro d
    rfl
  | cons p tr ih =>
    intro d
    rw [insFold_cons, ih, dictGet_insert]
    cases hl : lastOutput k tr with
    | some x => simp [lastOutput, hl, Option.orElse]
    | none =>
      simp only [lastOutput, hl, Option.orElse]
      by_cases hp : p.1 = k <;> simp [hp]

theorem lastOutput_isSome_of_mem (k : String) :
    ∀ tr : List (String × String),
      k ∈ tr.map Prod.fst → (lastOutput k tr).isSome = true := by
  intro tr
  induction tr with
  | nil =>
    intro h
    simp at h
  | cons p tr ih =>
    intro h
    simp only [lastOutput]
    cases hl : lastOutput k tr with
    | some x => simp [Option.orElse]
    | none =>
      simp only [List.map_cons, List.mem_cons] at h
      rcases h with h | h
      · subst h
        simp [Option.orElse]
      · have := ih h
        rw [hl] at this
        exact absurd this (by simp)

/-! ### First-occurrence deduplication lemmas -/

theorem fdf_mem : ∀ (l seen : List String) (x : String),
    x ∈ firstDedupFrom seen l → x ∈ l ∧ x ∉ seen := by
  intro l
  induction l with
  | nil =>
    intro seen x hx
    simp [firstDedupFrom] at hx
  | cons c cs ih =>
    intro seen x hx
    by_cases hc : c ∈ seen
    · simp only [firstDedupFrom, if_pos hc] at hx
      obtain ⟨h1, h2⟩ := ih seen x hx
      exact ⟨List.mem_cons_of_mem c h1, h2⟩
    · simp only [firstDedupFrom, if_neg hc] at hx
      rcases List.mem_cons.mp hx with rfl | hx
      · exact ⟨List.mem_cons_self _ _, hc⟩
      · obtain ⟨h1, h2⟩ := ih (seen ++ [c]) x hx
        exact ⟨List.mem_cons_of_mem c h1, fun hxs => h2 (List.mem_append_left _ hxs)⟩

theorem fdf_mem_of : ∀ (l seen : List String) (x : String),
    x ∈ l → x ∉ seen → x ∈ firstDedupFrom seen l := by
  intro l
  induction l with
  | nil =>
    intro seen x hx _
    simp at hx
  | cons c cs ih =>
    intro seen x hx hns
    by_cases hc : c ∈ seen
    · simp only [firstDedupFrom, if_pos hc]
      rcases List.mem_cons.mp hx with rfl | hx
      · exact absurd hc hns
      · exact ih seen x hx hns
    · simp only [firstDedupFrom, if_neg hc]
      rcases List.mem_cons.mp hx with rfl | hx
      · exact List.mem_cons_self _ _
      · by_cases hxc : x = c
        · subst hxc
          exact List.mem_cons_self _ _
        · refine List.mem_cons_of_mem c (ih (seen ++ [c]) x hx ?_)
          intro hmem
          rcases List.mem_append.mp hmem with hm | hm
          · exact hns hm
          · exact hxc (List.mem_singleton.mp hm)

theorem fdf_nodup : ∀ (l seen : List String), (firstDedupFrom seen l).Nodup := by
  intro l
  induction l with
  | nil =>
    intro seen
    simp [firstDedupFrom]
  | cons c cs ih =>
    intro seen
    by_cases hc : c ∈ seen
    · simp only [firstDedupFrom, if_pos hc]
      exact ih seen
    · simp only [firstDedupFrom, if_neg hc]
      refine List.nodup_cons.mpr ⟨?_, ih (seen ++ [c])⟩
      intro hmem
      obtain ⟨-, hnot⟩ := fdf_mem cs (seen ++ [c]) c hmem
      exact hnot (List.mem_append_right _ (List.mem_singleton.mpr rfl))

/-! ### Diagnostics loop lemmas -/

theorem diagLoop_fst (t : Transport) (s : Session) :
    ∀ (cs : List String) (w : World) (d : List (String × String)),
      (diagLoop t s w d cs).1 = insFold d (diagTrace t s w cs) := by
  intro cs
  induction cs with
  | nil =>
    intro w d
    rfl
  | cons c cs ih =>
    intro w d
    simp only [diagLoop, diagTrace]
    rw [ih]
    rfl

theorem diagTrace_fst (t : Transport) (s : Session) :
    ∀ (cs : List String) (w : World), (diagTrace t s w cs).map Prod.fst = cs := by
  intro cs
  induction cs with
  | nil =>
    intro w
    rfl
  | cons c cs ih =>
    intro w
    simp only [diagTrace, List.map_cons]
    rw [ih]

/-! ### Unconditional probe monotonicity -/

theorem cpuLine_mono {h h1 : Health} {line : List Char}
    (he : cpuLine h line = Except.ok h1) : HMono h h1 := by
  unfold cpuLine at he
  by_cases hm : pyContains fiveMinL line = true
  · rw [if_pos hm] at he
    cases hv : pyInt (fiveMinField line) with
    | none =>
      rw [hv] at he
      exact absurd he (by simp)
    | some v =>
      rw [hv] at he
      dsimp only at he
      by_cases hgt : v > 80
      · rw [if_pos hgt] at he
        simp only [Except.ok.injEq] at he
        rw [← he]
        exact hmono_addWarn h _
      · rw [if_neg hgt] at he
        simp only [Except.ok.injEq] at he
        rw [← he]
        exact hmono_refl h
  · rw [if_neg hm] at he
    simp only [Except.ok.injEq] at he
    rw [← he]
    exact hmono_refl h

theorem cpuLines_mono : ∀ (ls : List (List Char)) {h h1 : Health},
    cpuLines h ls = Except.ok h1 → HMono h h1 := by
  intro ls
  induction ls with
  | nil =>
    intro h h1 he
    simp only [cpuLines, Except.ok.injEq] at he
    rw [← he]
    exact hmono_refl h
  | cons l ls ih =>
    intro h h1 he
    simp only [cpuLines] at he
    cases hl : cpuLine h l with
    | error e =>
      rw [hl] at he
      exact absurd he (by simp)
    | ok h2 =>
      rw [hl] at he
      dsimp only at he
      exact hmono_trans (cpuLine_mono hl) (ih he)

theorem cpuCheck_mono {out : String} {h h1 : Health}
    (he : cpuCheck out h = Except.ok h1) : HMono h h1 := by
  unfold cpuCheck at he
  by_cases herr : pyContains errL out.toList = true
  · rw [if_pos herr] at he
    simp only [Except.ok.injEq] at he
    rw [← he]
    exact hmono_refl h
  · rw [if_neg herr] at he
    exact cpuLines_mono _ he

theorem memCheck_mono {out : String} {h h1 : Health}
    (he : memCheck out h = Except.ok h1) : HMono h h1 := by
  unfold memCheck at he
  by_cases hcond : (!pyContains errL out.toList && pyContains freeL out.toList) = true
  · rw [if_pos hcond] at he
    cases hv : pyInt ((pySplitWs out.toList).getLastD []) with
    | none =>
      rw [hv] at he
      exact absurd he (by simp)
    | some v =>
      rw [hv] at he
      dsimp only at he
      by_cases hlt : v < 10000000
      · rw [if_pos hlt] at he
        simp only [Except.ok.injEq] at he
        rw [← he]
        exact hmono_addWarn h _
      · rw [if_neg hlt] at he
        simp only [Except.ok.injEq] at he
        rw [← he]
        exact hmono_refl h
  · rw [if_neg hcond] at he
    simp only [Except.ok.injEq] at he
    rw [← he]
    exact hmono_refl h

theorem probeHealth_mono {t : Transport} {s : Session} {w : World} {h : Health}
    {w1 : World} (hp : probeHealth t s w = Except.ok (h, w1)) :
    HMono (initHealth s) h := by
  simp only [probeHealth] at hp
  cases hc1 : cpuCheck (run_command t s w cpuCmd).1 (initHealth s) with
  | error e =>
    rw [hc1] at hp
    exact absurd hp (by simp)
  | ok h1 =>
    rw [hc1] at hp
    dsimp only at hp
    cases hc2 : memCheck (run_command t s (run_command t s w cpuCmd).2 memCmd).1 h1 with
    | error e =>
      rw [hc2] at hp
      exact absurd hp (by simp)
    | ok h2 =>
      rw [hc2] at hp
      dsimp only at hp
      simp only [Except.ok.injEq, Prod.mk.injEq] at hp
      obtain ⟨hh, -⟩ := hp
      rw [← hh]
      exact hmono_trans (cpuCheck_mono hc1)
        (hmono_trans (memCheck_mono hc2) (intfCheck_mono _ h2))

/-! ### Claim theorems -/

/-- Claim C7 (confirmed): `run_command` on a session that was never
connected returns exactly the literal string "Error: Not connected to
device" without sending anything, and a transport exception is converted
into "Error executing command: " plus the underlying message, never
propagated. -/
theorem claim_C7 (t : Transport) (s : Session) (w : World) (cmd e : String) :
    (s.connection = none →
      run_command t s w cmd = ("Error: Not connected to device", w))
    ∧ (s.connection = some () → t.reply w.log cmd = Except.error e →
      run_command t s w cmd =
        ("Error executing command: " ++ e, { log := w.log ++ [cmd] })) :=
  ⟨fun hc => run_command_not_connected w cmd hc,
   fun hc hr => run_command_raise hc hr⟩

/-- Concrete instance of claim C7: a fresh session gets the sentinel, and a
connected session whose transport raises "boom" gets the annotated string. -/
theorem claim_C7_witness :
    run_command tBoom sNew w0 "show version" = ("Error: Not connected to device", w0)
    ∧ run_command tBoom sConn w0 "show version"
        = ("Error executing command: boom", { log := ["show version"] }) :=
  ⟨(claim_C7 tBoom sNew w0 "show version" "boom").1 rfl,
   (claim_C7 tBoom sConn w0 "show version" "boom").2 rfl rfl⟩

/-- Claim C9 (confirmed): on a session that is not connected and whose
connect attempt fails, `run_diagnostics` and `check_health` each return the
single-key failure object {"error": "Failed to connect to device"} — a
shape distinct from a bundle or report — and no commands are executed (the
transport history is unchanged). -/
theorem claim_C9 (t : Transport) (s : Session) (w : World)
    (commands : Option (List String)) (hc : s.connection = none)
    (hf : t.connectOk = false) :
    run_diagnostics t s w commands = (DiagResult.err "Failed to connect to device", s, w)
    ∧ check_health t s w
        = Except.ok (HealthOutcome.err "Failed to connect to device", s, w) :=
  ⟨run_diagnostics_conn_fail w commands hc hf, check_health_conn_fail w hc hf⟩

/-- Concrete instance of claim C9 on a fresh session against a device whose
connection attempts fail. -/
theorem claim_C9_witness :
    run_diagnostics tFail sNew w0 none
        = (DiagResult.err "Failed to connect to device", sNew, w0)
    ∧ check_health tFail sNew w0
        = Except.ok (HealthOutcome.err "Failed to connect to device", sNew, w0) :=
  claim_C9 tFail sNew w0 none rfl rfl

/-- Claim C5 (confirmed): on a connected session, when the CPU and memory
probes trigger nothing and the interface probe's output lacks "Error" and
is non-empty after trimming, the report carries exactly the issue
"{count} interfaces down" — count being the number of newline-delimited
lines of the trimmed output — with status still "healthy"; moreover the
interface probe never changes the status field. -/
theorem claim_C5 (t : Transport) (s : Session) (w : World)
    (cpuStr memStr intfStr : String) (hc : s.connection = some ())
    (hcpu : ∀ log, t.reply log cpuCmd = Except.ok cpuStr)
    (hmem : ∀ log, t.reply log memCmd = Except.ok memStr)
    (hintf : ∀ log, t.reply log intfCmd = Except.ok intfStr)
    (hcpus : ∀ h, cpuCheck cpuStr h = Except.ok h)
    (hmems : ∀ h, memCheck memStr h = Except.ok h)
    (herr : pyContains errL intfStr.toList = false)
    (hne : (pyStrip intfStr.toList).isEmpty = false) :
    (∃ w1, check_health t s w = Except.ok (HealthOutcome.report
      { device := s.ip, hostname := s.hostname, status := "healthy",
        issues := [toString (splitChar '\n' (pyStrip intfStr.toList)).length
          ++ " interfaces down"] }, s, w1))
    ∧ (∀ (out : String) (h : Health), (intfCheck out h).status = h.status) := by
  constructor
  · refine ⟨{ log := w.log ++ [cpuCmd, memCmd, intfCmd] }, ?_⟩
    have hrec : intfCheck intfStr (initHealth s)
        = { device := s.ip, hostname := s.hostname, status := "healthy",
            issues := [toString (splitChar '\n' (pyStrip intfStr.toList)).length
              ++ " interfaces down"] } := by
      rw [intfCheck_fires herr hne (initHealth s)]
      simp [initHealth]
    rw [check_health_connected w hc, probeHealth_eq w hc hcpu hmem hintf,
      hcpus (initHealth s)]
    dsimp only
    rw [hmems (initHealth s)]
    dsimp only
    rw [hrec, finalizeHealth_of_ne (by simp)]
  · exact intfCheck_status

/-- Concrete instance of claim C5: three interfaces down, empty CPU and
memory outputs, report "3 interfaces down" with status "healthy". -/
theorem claim_C5_witness :
    (∃ w1, check_health (replyTable "" "" intfSpec) sConn w0
      = Except.ok (HealthOutcome.report
        { device := sConn.ip, hostname := sConn.hostname, status := "healthy",
          issues := [toString (splitChar '\n' (pyStrip intfSpec.toList)).length
            ++ " interfaces down"] }, sConn, w1))
    ∧ (∀ (out : String) (h : Health), (intfCheck out h).status = h.status) :=
  claim_C5 (replyTable "" "" intfSpec) sConn w0 "" "" intfSpec rfl
    (fun _ => rfl) (fun _ => rfl) (fun _ => rfl)
    (fun _ => rfl) (fun _ => rfl) (by decide) (by decide)

/-- Claim C6 (confirmed): every health report produced on a connected
session has a nonempty issues sequence, and when the probes appended no
issue the returned report carries exactly ["No issues detected"] with
status "healthy". -/
theorem claim_C6 (t : Transport) (s : Session) (w : World)
    (hc : s.connection = some ()) :
    (∀ r s1 w1, check_health t s w = Except.ok (HealthOutcome.report r, s1, w1) →
      r.issues ≠ [])
    ∧ (∀ h w1, probeHealth t s w = Except.ok (h, w1) → h.issues = [] →
      h.status = "healthy" ∧
      check_health t s w = Except.ok (HealthOutcome.report
        { h with issues := ["No issues detected"] }, s, w1)) := by
  constructor
  · intro r s1 w1 hr
    rw [check_health_connected w hc] at hr
    cases hp : probeHealth t s w with
    | error e =>
      rw [hp] at hr
      exact absurd hr (by simp)
    | ok p =>
      obtain ⟨h, w2⟩ := p
      rw [hp] at hr
      dsimp only at hr
      simp only [Except.ok.injEq, Prod.mk.injEq, HealthOutcome.report.injEq] at hr
      obtain ⟨hfr, -, -⟩ := hr
      rw [← hfr]
      exact finalizeHealth_ne_nil h
  · intro h w1 hp hnil
    have hmono := probeHealth_mono hp
    have hstat : h.status = "healthy" :=
      hmono_empty_status hmono (by rw [hnil]; rfl)
    refine ⟨hstat, ?_⟩
    rw [check_health_connected w hc, hp]
    dsimp only
    rw [finalizeHealth_of_nil hnil]

/-- Concrete instance of claim C6: all probe outputs empty, so the report is
exactly ["No issues detected"] with status "healthy". -/
theorem claim_C6_witness :
    (∀ r s1 w1, check_health (replyAll "") sConn w0
        = Except.ok (HealthOutcome.report r, s1, w1) → r.issues ≠ [])
    ∧ (∀ h w1, probeHealth (replyAll "") sConn w0 = Except.ok (h, w1) →
      h.issues = [] → h.status = "healthy" ∧
      check_health (replyAll "") sConn w0 = Except.ok (HealthOutcome.report
        { h with issues := ["No issues detected"] }, sConn, w1)) :=
  claim_C6 (replyAll "") sConn w0 rfl

/-- Claim C4 (confirmed): on a connected session, when the memory output
contains "Free", lacks "Error" and its last whitespace-delimited token
parses to an integer below 10000000, the health check appends "Low memory"
and sets status to "warning"; in every other case the memory probe adds no
issue (it returns the health dict unchanged or raises). -/
theorem claim_C4 (t : Transport) (s : Session) (w : World)
    (cpuStr memStr intfStr : String) (v : Int) (hc : s.connection = some ())
    (hcpu : ∀ log, t.reply log cpuCmd = Except.ok cpuStr)
    (hmem : ∀ log, t.reply log memCmd = Except.ok memStr)
    (hintf : ∀ log, t.reply log intfCmd = Except.ok intfStr)
    (hcpuok : cpuParses cpuStr = true)
    (hfree : pyContains freeL memStr.toList = true)
    (herr : pyContains errL memStr.toList = false)
    (hv : pyInt ((pySplitWs memStr.toList).getLastD []) = some v)
    (hlt : v < 10000000) :
    (∃ r w1, check_health t s w = Except.ok (HealthOutcome.report r, s, w1) ∧
      "Low memory" ∈ r.issues ∧ r.status = "warning")
    ∧ (∀ (out : String) (h : Health),
      (pyContains freeL out.toList = false ∨ pyContains errL out.toList = true ∨
        ∀ u : Int, pyInt ((pySplitWs out.toList).getLastD []) = some u → 10000000 ≤ u) →
      memCheck out h = Except.ok h ∨ memCheck out h = Except.error ()) := by
  constructor
  · obtain ⟨h1, hh1, hm1⟩ := cpuCheck_ok_of_parses hcpuok (initHealth s)
    have hfire := memCheck_fires hfree herr hv hlt h1
    have hmem2 : "Low memory" ∈ (intfCheck intfStr (addWarn h1 "Low memory")).issues :=
      hmono_mem (intfCheck_mono intfStr _) (by simp [addWarn])
    have hwarn2 : (intfCheck intfStr (addWarn h1 "Low memory")).status = "warning" :=
      hmono_warning (intfCheck_mono intfStr _) rfl
    have hnn := List.ne_nil_of_mem hmem2
    refine ⟨finalizeHealth (intfCheck intfStr (addWarn h1 "Low memory")),
      { log := w.log ++ [cpuCmd, memCmd, intfCmd] }, ?_, ?_, ?_⟩
    · rw [check_health_connected w hc, probeHealth_eq w hc hcpu hmem hintf, hh1]
      dsimp only
      rw [hfire]
    · rw [finalizeHealth_of_ne hnn]
      exact hmem2
    · rw [finalizeHealth_of_ne hnn]
      exact hwarn2
  · exact fun out h hcond => memCheck_skip h hcond

/-- Concrete instance of claim C4 on the specification example memory
output (free 1000000 < 10000000). -/
theorem claim_C4_witness :
    (∃ r w1, check_health (replyTable "" memSpec "") sConn w0
      = Except.ok (HealthOutcome.report r, sConn, w1) ∧
      "Low memory" ∈ r.issues ∧ r.status = "warning")
    ∧ (∀ (out : String) (h : Health),
      (pyContains freeL out.toList = false ∨ pyContains errL out.toList = true ∨
        ∀ u : Int, pyInt ((pySplitWs out.toList).getLastD []) = some u → 10000000 ≤ u) →
      memCheck out h = Except.ok h ∨ memCheck out h = Except.error ()) :=
  claim_C4 (replyTable "" memSpec "") sConn w0 "" memSpec "" 1000000 rfl
    (fun _ => rfl) (fun _ => rfl) (fun _ => rfl)
    (by decide) (by decide) (by decide) (by decide) (by decide)

/-- Claim C3 (confirmed): on a connected session, when the CPU output lacks
"Error", one of its lines contains the five-minute marker with an integer
percentage above 80 (and every marker line parses, so the loop completes),
and the memory probe parses, the health check reports the issue
"High CPU usage: {v}%" with status "warning". -/
theorem claim_C3 (t : Transport) (s : Session) (w : World)
    (cpuStr memStr intfStr : String) (line : List Char) (v : Int)
    (hc : s.connection = some ())
    (hcpu : ∀ log, t.reply log cpuCmd = Except.ok cpuStr)
    (hmem : ∀ log, t.reply log memCmd = Except.ok memStr)
    (hintf : ∀ log, t.reply log intfCmd = Except.ok intfStr)
    (herr : pyContains errL cpuStr.toList = false)
    (hline : line ∈ splitChar '\n' (pyStrip cpuStr.toList))
    (hmark : pyContains fiveMinL line = true)
    (hv : pyInt (fiveMinField line) = some v)
    (hgt : v > 80)
    (hall : ∀ l ∈ splitChar '\n' (pyStrip cpuStr.toList), cpuLineOk l = true)
    (hmemok : memParses memStr = true) :
    ∃ r w1, check_health t s w = Except.ok (HealthOutcome.report r, s, w1) ∧
      ("High CPU usage: " ++ toString v ++ "%") ∈ r.issues ∧
      r.status = "warning" := by
  obtain ⟨h1, hh1, hmem1, hst1⟩ := cpuLines_mem hline hall hmark hv hgt (initHealth s)
  have hcc : cpuCheck cpuStr (initHealth s) = Except.ok h1 := by
    unfold cpuCheck
    rw [herr]
    simpa using hh1
  obtain ⟨h2, hh2, hm2⟩ := memCheck_ok_of_parses hmemok h1
  have hmem3 : ("High CPU usage: " ++ toString v ++ "%")
      ∈ (intfCheck intfStr h2).issues :=
    hmono_mem (intfCheck_mono intfStr h2) (hmono_mem hm2 hmem1)
  have hwarn3 : (intfCheck intfStr h2).status = "warning" :=
    hmono_warning (intfCheck_mono intfStr h2) (hmono_warning hm2 hst1)
  have hnn := List.ne_nil_of_mem hmem3
  refine ⟨finalizeHealth (intfCheck intfStr h2),
    { log := w.log ++ [cpuCmd, memCmd, intfCmd] }, ?_, ?_, ?_⟩
  · rw [check_health_connected w hc, probeHealth_eq w hc hcpu hmem hintf, hcc]
    dsimp only
    rw [hh2]
  · rw [finalizeHealth_of_ne hnn]
    exact hmem3
  · rw [finalizeHealth_of_ne hnn]
    exact hwarn3

/-- Concrete instance of claim C3 on the specification example CPU output:
"...five minutes: 85%" yields issue "High CPU usage: 85%" and status
"warning". -/
theorem claim_C3_witness :
    ∃ r w1, check_health (replyAll cpuSpec) sConn w0
      = Except.ok (HealthOutcome.report r, sConn, w1) ∧
      ("High CPU usage: " ++ toString (85 : Int) ++ "%") ∈ r.issues ∧
      r.status = "warning" :=
  claim_C3 (replyAll cpuSpec) sConn w0 cpuSpec cpuSpec cpuSpec
    (pyStrip cpuSpec.toList) 85 rfl
    (fun _ => rfl) (fun _ => rfl) (fun _ => rfl)
    (by decide) (by decide) (by decide) (by decide) (by decide)
    (by decide) (by decide)

/-- Claim C10 (confirmed): on a connected session, `run_diagnostics` called
with an explicitly empty command list falls back to the default diagnostic
command list: the returned bundle has one entry for each default command,
not an empty mapping. -/
theorem claim_C10 (t : Transport) (s : Session) (w : World)
    (hc : s.connection = some ()) :
    ∃ b w1, run_diagnostics t s w (some []) = (DiagResult.bundle b, s, w1) ∧
      b.diagnostics.map Prod.fst = DIAGNOSTIC_COMMANDS ∧
      (∀ c ∈ DIAGNOSTIC_COMMANDS, (dictGet b.diagnostics c).isSome = true) := by
  refine ⟨mkBundle t s (diagLoop t s w [] (resolveCommands (some []))).1,
    (diagLoop t s w [] (resolveCommands (some []))).2,
    run_diagnostics_connected w (some []) hc, ?_, ?_⟩
  · show (diagLoop t s w [] (resolveCommands (some []))).1.map Prod.fst
      = DIAGNOSTIC_COMMANDS
    rw [diagLoop_fst, insFold_keys, diagTrace_fst]
    decide
  · intro c hcm
    show (dictGet (diagLoop t s w [] (resolveCommands (some []))).1 c).isSome = true
    rw [diagLoop_fst, insFold_get]
    have hsome := lastOutput_isSome_of_mem c
      (diagTrace t s w (resolveCommands (some [])))
      (by rw [diagTrace_fst]; exact hcm)
    cases hl : lastOutput c (diagTrace t s w (resolveCommands (some []))) with
    | none =>
      rw [hl] at hsome
      exact absurd hsome (by simp)
    | some x => rfl

/-- Concrete instance of claim C10 on a connected session. -/
theorem claim_C10_witness :
    ∃ b w1, run_diagnostics tUp sConn w0 (some [])
      = (DiagResult.bundle b, sConn, w1) ∧
      b.diagnostics.map Prod.fst = DIAGNOSTIC_COMMANDS ∧
      (∀ c ∈ DIAGNOSTIC_COMMANDS, (dictGet b.diagnostics c).isSome = true) :=
  claim_C10 tUp sConn w0 rfl

/-- Claim C8 (confirmed): on a connected session, for a command list with
duplicates the bundle mapping has exactly one entry per distinct command
(keys are the duplicate-free list in order of first occurrence) and each
entry holds the output of the last execution of that command in the
execution trace. -/
theorem claim_C8 (t : Transport) (s : Session) (w : World) (cmds : List String)
    (hc : s.connection = some ()) (hdup : ¬ cmds.Nodup) :
    ∃ b w1, run_diagnostics t s w (some cmds) = (DiagResult.bundle b, s, w1) ∧
      b.diagnostics.map Prod.fst = firstDedup cmds ∧
      (b.diagnostics.map Prod.fst).Nodup ∧
      (∀ k, k ∈ b.diagnostics.map Prod.fst ↔ k ∈ cmds) ∧
      (∀ k, dictGet b.diagnostics k = lastOutput k (diagTrace t s w cmds)) := by
  have hres : resolveCommands (some cmds) = cmds := by
    cases cmds with
    | nil => exact absurd List.nodup_nil hdup
    | cons c cs => rfl
  have hkeys : (diagLoop t s w [] cmds).1.map Prod.fst = firstDedup cmds := by
    rw [diagLoop_fst, insFold_keys, diagTrace_fst]
    simp [firstDedup]
  have hget : ∀ k, dictGet (diagLoop t s w [] cmds).1 k
      = lastOutput k (diagTrace t s w cmds) := by
    intro k
    rw [diagLoop_fst, insFold_get]
    exact opOrElse_none _
  refine ⟨mkBundle t s (diagLoop t s w [] (resolveCommands (some cmds))).1,
    (diagLoop t s w [] (resolveCommands (some cmds))).2,
    run_diagnostics_connected w (some cmds) hc, ?_, ?_, ?_, ?_⟩
  · show (diagLoop t s w [] (resolveCommands (some cmds))).1.map Prod.fst
      = firstDedup cmds
    rw [hres, hkeys]
  · show ((diagLoop t s w [] (resolveCommands (some cmds))).1.map Prod.fst).Nodup
    rw [hres, hkeys]
    exact fdf_nodup cmds []
  · intro k
    show k ∈ (diagLoop t s w [] (resolveCommands (some cmds))).1.map Prod.fst ↔ k ∈ cmds
    rw [hres, hkeys]
    constructor
    · intro hk
      exact (fdf_mem cmds [] k hk).1
    · intro hk
      exact fdf_mem_of cmds [] k hk (by simp)
  · intro k
    show dictGet (diagLoop t s w [] (resolveCommands (some cmds))).1 k
      = lastOutput k (diagTrace t s w cmds)
    rw [hres]
    exact hget k

/-- Concrete instance of claim C8: the duplicate list ["a", "b", "a"]
against a device whose replies depend on how many commands were already
sent, so the two executions of "a" give different outputs and the mapping
keeps the later one. -/
theorem claim_C8_witness :
    ∃ b w1, run_diagnostics tHist sConn w0 (some ["a", "b", "a"])
      = (DiagResult.bundle b, sConn, w1) ∧
      b.diagnostics.map Prod.fst = firstDedup ["a", "b", "a"] ∧
      (b.diagnostics.map Prod.fst).Nodup ∧
      (∀ k, k ∈ b.diagnostics.map Prod.fst ↔ k ∈ ["a", "b", "a"]) ∧
      (∀ k, dictGet b.diagnostics k
        = lastOutput k (diagTrace tHist sConn w0 ["a", "b", "a"])) :=
  claim_C8 tHist sConn w0 ["a", "b", "a"] rfl (by decide)

/-- Claim C1 is refuted by this counterexample: on a connected session whose
CPU probe output is "five minutes: eighty%" (no "Error" marker, marker line
present, field not an integer), `check_health` raises the int-conversion
exception instead of swallowing the parse failure, and the memory and
interface probes never run. -/
theorem claim_C1_counterexample :
    check_health (replyAll badCpuOut) sConn w0 = Except.error () := rfl

/-- Claim C1 (amended): probes whose marker or trigger is absent do skip
silently, but a parse failure is not swallowed: on a connected session the
health check returns a report exactly when the CPU output parses (every
line containing "five minutes:" has an integer field) and the memory output
parses (its last token is an integer whenever "Free" is present without
"Error"); otherwise the int conversion raises and aborts the check. The
interface probe never raises. -/
theorem claim_C1_amended (t : Transport) (s : Session) (w : World)
    (cpuStr memStr intfStr : String) (hc : s.connection = some ())
    (hcpu : ∀ log, t.reply log cpuCmd = Except.ok cpuStr)
    (hmem : ∀ log, t.reply log memCmd = Except.ok memStr)
    (hintf : ∀ log, t.reply log intfCmd = Except.ok intfStr) :
    (∃ p, check_health t s w = Except.ok p) ↔
      (cpuParses cpuStr = true ∧ memParses memStr = true) := by
  rw [check_health_connected w hc, probeHealth_eq w hc hcpu hmem hintf]
  constructor
  · rintro ⟨p, hp⟩
    cases hc1 : cpuCheck cpuStr (initHealth s) with
    | error e =>
      rw [hc1] at hp
      exact absurd hp (by simp)
    | ok h1 =>
      rw [hc1] at hp
      dsimp only at hp
      cases hc2 : memCheck memStr h1 with
      | error e =>
        rw [hc2] at hp
        exact absurd hp (by simp)
      | ok h2 =>
        exact ⟨(cpuCheck_ok_iff (initHealth s)).mp ⟨h1, hc1⟩,
          (memCheck_ok_iff h1).mp ⟨h2, hc2⟩⟩
  · rintro ⟨hcp, hmp⟩
    obtain ⟨h1, hh1, -⟩ := cpuCheck_ok_of_parses hcp (initHealth s)
    obtain ⟨h2, hh2, -⟩ := memCheck_ok_of_parses hmp h1
    rw [hh1]
    dsimp only
    rw [hh2]
    dsimp only
    exact ⟨_, rfl⟩

/-- Concrete instance of the amended claim C1: with the specification's CPU
example answered to every probe, both probes parse and the check returns a
report. -/
theorem claim_C1_witness :
    (∃ p, check_health (replyAll cpuSpec) sConn w0 = Except.ok p) ↔
      (cpuParses cpuSpec = true ∧ memParses cpuSpec = true) :=
  claim_C1_amended (replyAll cpuSpec) sConn w0 cpuSpec cpuSpec cpuSpec rfl
    (fun _ => rfl) (fun _ => rfl) (fun _ => rfl)

/-- Claim C2 is refuted by this counterexample: after a successful connect
followed by disconnect, the session still holds the connection reference,
so `run_command` sends the command over the transport (the history grows
and the device's answer "all good" is returned) instead of failing fast
with the "not connected" result. -/
theorem claim_C2_counterexample :
    (run_command tUp
      (runTrace tUp (initSession "10.0.0.2", w0) [Op.connect, Op.disconnect]).1
      (runTrace tUp (initSession "10.0.0.2", w0) [Op.connect, Op.disconnect]).2
      "show clock").1 = "all good"
    ∧ (run_command tUp
      (runTrace tUp (initSession "10.0.0.2", w0) [Op.connect, Op.disconnect]).1
      (runTrace tUp (initSession "10.0.0.2", w0) [Op.connect, Op.disconnect]).2
      "show clock").2.log = ["show clock"]
    ∧ "all good" ≠ notConnectedMsg :=
  ⟨rfl, rfl, by decide⟩

/-- Claim C2 (amended): in every reachable session state, hostname is set
only after a successful connect, and command execution on a session that
never successfully connected fails fast with the "not connected" result;
but `disconnect` leaves the session state (connection reference and
hostname) completely unchanged, so it does not restore the fail-fast
behavior. -/
theorem claim_C2_amended (t : Transport) (s0 : Session) (wa : World)
    (ops : List Op) (cmd : String)
    (hconn0 : s0.connection = none) (hhost0 : s0.hostname = none) :
    ((runTrace t (s0, wa) ops).1.hostname ≠ none →
      Op.connect ∈ ops ∧ t.connectOk = true)
    ∧ (¬(Op.connect ∈ ops ∧ t.connectOk = true) →
      (run_command t (runTrace t (s0, wa) ops).1
        (runTrace t (s0, wa) ops).2 cmd).1 = "Error: Not connected to device")
    ∧ disconnect (runTrace t (s0, wa) ops).1 = (runTrace t (s0, wa) ops).1 := by
  refine ⟨?_, ?_, rfl⟩
  · intro hh
    by_contra hno
    rw [runTrace_no_connect t ops s0 wa hconn0 hno] at hh
    exact hh hhost0
  · intro hno
    rw [runTrace_no_connect t ops s0 wa hconn0 hno]
    dsimp only
    rw [run_command_not_connected wa cmd hconn0]
    rfl

/-- Concrete instance of the amended claim C2: a fresh session put through
disconnect and a command, against a device that refuses connections. -/
theorem claim_C2_witness :
    ((runTrace tFail (sNew, w0) [Op.disconnect, Op.run "x"]).1.hostname ≠ none →
      Op.connect ∈ [Op.disconnect, Op.run "x"] ∧ tFail.connectOk = true)
    ∧ (¬(Op.connect ∈ [Op.disconnect, Op.run "x"] ∧ tFail.connectOk = true) →
      (run_command tFail (runTrace tFail (sNew, w0) [Op.disconnect, Op.run "x"]).1
        (runTrace tFail (sNew, w0) [Op.disconnect, Op.run "x"]).2 "show clock").1
          = "Error: Not connected to device")
    ∧ disconnect (runTrace tFail (sNew, w0) [Op.disconnect, Op.run "x"]).1
        = (runTrace tFail (sNew, w0) [Op.disconnect, Op.run "x"]).1 :=
  claim_C2_amended tFail sNew w0 [Op.disconnect, Op.run "x"] "show clock" rfl rfl

end Cisco

